import Mathlib

/-!
Shallow embedding of the request dispatch and rate-limit recovery layer of
the trello-helper library: `TrelloRequest` (trelloRequest.js), the dispatch
wrappers `get`/`put`/`post`/`delete` of the `Trello` class (trello.js), the
fixed-delay retry on GET, and a few domain verbs whose option shaping is
under scrutiny (`getActionsOnCard`, `getArchivedCardsOnList`,
`getArchivedCardsOnBoard`).

JavaScript objects are modelled as association lists of string keys and
`JsVal` values; promise outcomes as `DispatchOutcome`; the transport
(request-promise-native) as a scripted list of per-attempt results, with a
trace recording every transport invocation and every awaited delay.
-/

/-- A JavaScript value, as far as this layer manipulates them:
`undefined`, `null`, booleans, (integer) numbers, strings, and plain
objects given as ordered key/value field lists. -/
inductive JsVal where
  | undef
  | null
  | bool (b : Bool)
  | num (n : Int)
  | str (s : String)
  | obj (fields : List (String × JsVal))

/-- A JavaScript object: ordered association list of fields. -/
abbrev JsObj := List (String × JsVal)

/-- JavaScript truthiness of a value (as used by `a || b`). -/
def truthy : JsVal → Bool
  | .undef => false
  | .null => false
  | .bool b => b
  | .num n => n != 0
  | .str s => s != ""
  | .obj _ => true

/-- Property read `o[k]`: first field with the given key (JS objects keep
keys unique, so first match is the only match). -/
def jsLookup : JsObj → String → Option JsVal
  | [], _ => none
  | p :: rest, k => if p.1 = k then some p.2 else jsLookup rest k

/-- Does the object carry the key? -/
def jsHasKey (o : JsObj) (k : String) : Bool :=
  (jsLookup o k).isSome

/-- Property write `o[k] = v`: overwrite the field in place when the key is
present, append it otherwise (JavaScript object assignment). -/
def jsSet (o : JsObj) (k : String) (v : JsVal) : JsObj :=
  if jsHasKey o k then
    o.map (fun p => if p.1 = k then (k, v) else p)
  else
    o ++ [(k, v)]

/-- Object spread merge `{...a, ...b}`: fields of `b` written over `a`
one by one, so for a duplicated key the later write wins. -/
def jsMerge (a b : JsObj) : JsObj :=
  b.foldl (fun acc p => jsSet acc p.1 p.2) a

theorem jsLookup_map_set_ne (o : JsObj) (k k' : String) (v : JsVal)
    (h : k' ≠ k) :
    jsLookup (o.map (fun p => if p.1 = k then (k, v) else p)) k' =
      jsLookup o k' := by
  induction o with
  | nil => rfl
  | cons p rest ih =>
    by_cases hk : p.1 = k
    · simp [jsLookup, hk, Ne.symm h, ih]
    · by_cases hk' : p.1 = k' <;> simp [jsLookup, hk, hk', h, ih]

theorem jsLookup_append_ne (o : JsObj) (k k' : String) (v : JsVal)
    (h : k' ≠ k) :
    jsLookup (o ++ [(k, v)]) k' = jsLookup o k' := by
  induction o with
  | nil => simp [jsLookup, Ne.symm h]
  | cons p rest ih =>
    by_cases hk' : p.1 = k' <;> simp [jsLookup, hk', ih]

theorem jsLookup_map_set_self (o : JsObj) (k : String) (v : JsVal)
    (hc : (jsLookup o k).isSome) :
    jsLookup (o.map (fun p => if p.1 = k then (k, v) else p)) k = some v := by
  induction o with
  | nil => simp [jsLookup] at hc
  | cons p rest ih =>
    by_cases hk : p.1 = k
    · simp [jsLookup, hk]
    · simp [jsLookup, hk] at hc ⊢
      exact ih hc

theorem jsLookup_append_self (o : JsObj) (k : String) (v : JsVal)
    (hc : jsLookup o k = none) :
    jsLookup (o ++ [(k, v)]) k = some v := by
  induction o with
  | nil => simp [jsLookup]
  | cons p rest ih =>
    by_cases hk : p.1 = k
    · simp [jsLookup, hk] at hc
    · simp [jsLookup, hk] at hc ⊢
      exact ih hc

theorem jsLookup_jsSet_self (o : JsObj) (k : String) (v : JsVal) :
    jsLookup (jsSet o k v) k = some v := by
  unfold jsSet
  by_cases hc : jsHasKey o k
  · simp only [hc, if_true]
    exact jsLookup_map_set_self o k v (by simpa [jsHasKey] using hc)
  · simp only [hc, if_false]
    exact jsLookup_append_self o k v
      (Option.not_isSome_iff_eq_none.mp (by simpa [jsHasKey] using hc))

theorem jsLookup_jsSet_ne (o : JsObj) (k k' : String) (v : JsVal)
    (h : k' ≠ k) : jsLookup (jsSet o k v) k' = jsLookup o k' := by
  unfold jsSet
  by_cases hc : jsHasKey o k
  · simp only [hc, if_true]
    exact jsLookup_map_set_ne o k k' v h
  · simp only [hc, if_false]
    exact jsLookup_append_ne o k k' v h

/-- A transport-level rejection (the error object request-promise-native
rejects with): carries the HTTP status code when one exists (a pure network
failure has none) and an opaque message. -/
structure TransportErr where
  statusCode : Option Nat
  message : String
deriving Repr, DecidableEq

/-- The state of a `TrelloRequest` instance (trelloRequest.js constructor):
the credential pair, the fixed base URI, and the mutable
`doFullResponse` flag (false at construction). -/
structure TrelloRequest where
  key : String
  token : String
  uri : String
  doFullResponse : Bool
deriving Repr, DecidableEq

/-- `new TrelloRequest({key, token})`: stores the credentials, sets the
base URI, and turns full-response mode off. -/
def TrelloRequest.init (key token : String) : TrelloRequest :=
  { key := key, token := token, uri := "https://api.trello.com",
    doFullResponse := false }

/-- `TrelloRequest.getRateLimitError()` — the Trello API error code when
the rate is exceeded. -/
def TrelloRequest.getRateLimitError : Nat := 429

/-- `TrelloRequest.getRateLimitDelayMs()` — the suggested retry delay. -/
def TrelloRequest.getRateLimitDelayMs : Nat := 500

/-- `_getAuthObj()`: the `{key, token}` pair as a query-string object. -/
def TrelloRequest.getAuthObj (s : TrelloRequest) : JsObj :=
  [("key", JsVal.str s.key), ("token", JsVal.str s.token)]

/-- The options object handed to request-promise-native for one HTTP call:
`uri`, query string `qs`, `json` flag, `resolveWithFullResponse` flag, and
the verb-specific `body` (put/post) or stray `options` property (delete). -/
structure RpnOptions where
  uri : String
  qs : JsObj
  json : Bool
  resolveWithFullResponse : Bool
  body : Option JsObj
  options : Option JsObj

/-- `setupDefaultOption(path)`: the common request options used by all
verbs; `resolveWithFullResponse` is read from the instance flag at the
time the request is built. -/
def TrelloRequest.setupDefaultOption (s : TrelloRequest) (path : String) :
    RpnOptions :=
  { uri := s.uri ++ path
    qs := s.getAuthObj
    json := true
    resolveWithFullResponse := s.doFullResponse
    body := none
    options := none }

/-- `get(getOptions)` request construction: the caller options are merged
with the auth pair into the query string (`{...auth, ...options}`). -/
def TrelloRequest.getRpn (s : TrelloRequest) (path : String)
    (options : JsObj) : RpnOptions :=
  { s.setupDefaultOption path with qs := jsMerge s.getAuthObj options }

/-- `setupPutPostOptions(options)`: the shared put/post construction; the
caller body becomes the request payload `body`. -/
def TrelloRequest.setupPutPostOptions (s : TrelloRequest) (path : String)
    (body : JsObj) : RpnOptions :=
  { s.setupDefaultOption path with body := some body }

/-- `put(putOptions)` request construction. -/
def TrelloRequest.putRpn (s : TrelloRequest) (path : String)
    (body : JsObj) : RpnOptions :=
  s.setupPutPostOptions path body

/-- `post(postOptions)` request construction. -/
def TrelloRequest.postRpn (s : TrelloRequest) (path : String)
    (body : JsObj) : RpnOptions :=
  s.setupPutPostOptions path body

/-- `delete(deleteOptions)` request construction: the default options keep
`qs` at the bare auth pair, and the caller options are assigned to the
`options` property of the request options object (`rpnOptions.options =
options`), which is not part of the query string. -/
def TrelloRequest.deleteRpn (s : TrelloRequest) (path : String)
    (options : JsObj) : RpnOptions :=
  { s.setupDefaultOption path with options := some options }

/-- The `{path, options}` argument object the `Trello` wrappers receive;
either member can hold any JavaScript value (absent = `undefined`). -/
structure PathOptions where
  path : JsVal
  options : JsVal

/-- Modelled from the spec: the `typeValidate` module (`tv.validatePathOptions`,
`tv.validateOptionsOrBody`) is not among the provided sources; per §4.1,
`path` must be a non-empty string. -/
def validPath : JsVal → Bool
  | .str s => s != ""
  | _ => false

/-- Modelled from the spec: per §4.1 the options/body argument, when
present, must be a mapping type. -/
def validOptionsArg : JsVal → Bool
  | .undef => true
  | .obj _ => true
  | _ => false

/-- Modelled from the spec: `tv.validatePathOptions(pathOptions)` accepts
exactly the argument objects with a non-empty-string `path` and a mapping
(or absent) `options`; otherwise a `ValidationError` is thrown
synchronously, before any network call. -/
def validatePathOptions (po : PathOptions) : Bool :=
  validPath po.path && validOptionsArg po.options

/-- Object spread of an arbitrary value (`{...v}`): spreading `undefined`
or `null` contributes no fields. After validation the value is an object
or `undefined`, so only those cases arise. -/
def jsSpread : JsVal → JsObj
  | .obj o => o
  | _ => []

/-- The string carried by a (valid) `path` value. -/
def jsStr : JsVal → String
  | .str s => s
  | _ => ""

/-- One observable step of a dispatch run: a transport invocation with the
request options it was built with, or an awaited delay of `ms`
milliseconds (`utils.delay`). -/
inductive TraceEv where
  | call (req : RpnOptions)
  | delay (ms : Nat)

/-- The terminal observation the caller makes of one dispatcher promise:
resolution (with `none` standing for JavaScript `undefined`), rejection
with a transport error, a synchronous `ValidationError`, or `exhausted`
when the scripted transport has no response left for an attempt. -/
inductive DispatchOutcome where
  | resolved (v : Option JsVal)
  | rejected (e : TransportErr)
  | validationError
  | exhausted

/-- The GET retry loop of `Trello.get` (trello.js): the transport result of
attempt `i` is `responses[i]`. On success the promise resolves with the
value. On an error whose `statusCode` equals the rate-limit code, the
handler awaits the fixed delay and re-issues the same request — but the
recursive call is neither returned nor awaited (`this.get(pathOptions)`),
so its value is discarded and the outer promise resolves with `undefined`
(`none`); the background recursion still performs its transport calls,
which the trace records. Any other error is re-thrown unchanged. -/
def Trello.getLoop (req : RpnOptions) :
    List (Except TransportErr JsVal) → DispatchOutcome × List TraceEv
  | [] => (.exhausted, [])
  | .ok v :: _ => (.resolved (some v), [.call req])
  | .error e :: rest =>
    if e.statusCode = some TrelloRequest.getRateLimitError then
      (.resolved none,
        .call req :: .delay TrelloRequest.getRateLimitDelayMs ::
          (Trello.getLoop req rest).2)
    else
      (.rejected e, [.call req])

/-- `Trello.get(pathOptions)`: validate synchronously, then run the GET
call with rate-limit retry against the scripted transport. -/
def Trello.get (s : TrelloRequest) (po : PathOptions)
    (responses : List (Except TransportErr JsVal)) :
    DispatchOutcome × List TraceEv :=
  if validatePathOptions po then
    Trello.getLoop (s.getRpn (jsStr po.path) (jsSpread po.options)) responses
  else
    (.validationError, [])

/-- `Trello.put(pathOptions)`: validate, build the put request (caller
options become the body), issue exactly one transport call and surface its
result unchanged — no catch handler, no retry. -/
def Trello.put (s : TrelloRequest) (po : PathOptions)
    (responses : List (Except TransportErr JsVal)) :
    DispatchOutcome × List TraceEv :=
  if validatePathOptions po then
    match responses with
    | [] => (.exhausted, [])
    | .ok v :: _ =>
      (.resolved (some v), [.call (s.putRpn (jsStr po.path) (jsSpread po.options))])
    | .error e :: _ =>
      (.rejected e, [.call (s.putRpn (jsStr po.path) (jsSpread po.options))])
  else
    (.validationError, [])

/-- `Trello.post(pathOptions)`: same single-shot shape as `put`. -/
def Trello.post (s : TrelloRequest) (po : PathOptions)
    (responses : List (Except TransportErr JsVal)) :
    DispatchOutcome × List TraceEv :=
  if validatePathOptions po then
    match responses with
    | [] => (.exhausted, [])
    | .ok v :: _ =>
      (.resolved (some v), [.call (s.postRpn (jsStr po.path) (jsSpread po.options))])
    | .error e :: _ =>
      (.rejected e, [.call (s.postRpn (jsStr po.path) (jsSpread po.options))])
  else
    (.validationError, [])

/-- `Trello.delete(pathOptions)`: single transport call, result surfaced
unchanged — no retry. -/
def Trello.delete (s : TrelloRequest) (po : PathOptions)
    (responses : List (Except TransportErr JsVal)) :
    DispatchOutcome × List TraceEv :=
  if validatePathOptions po then
    match responses with
    | [] => (.exhausted, [])
    | .ok v :: _ =>
      (.resolved (some v), [.call (s.deleteRpn (jsStr po.path) (jsSpread po.options))])
    | .error e :: _ =>
      (.rejected e, [.call (s.deleteRpn (jsStr po.path) (jsSpread po.options))])
  else
    (.validationError, [])

/-- Count of transport invocations recorded in a trace. -/
def callCount (tr : List TraceEv) : Nat :=
  tr.countP (fun ev => match ev with | .call _ => true | .delay _ => false)

/-- Count of awaited delays recorded in a trace. -/
def delayCount (tr : List TraceEv) : Nat :=
  tr.countP (fun ev => match ev with | .call _ => false | .delay _ => true)

/-- The trace a rate-limited GET leaves behind: `n` cycles of one
transport call followed by one awaited fixed delay, then a final call. -/
def retryTrace (req : RpnOptions) : Nat → List TraceEv
  | 0 => [.call req]
  | n + 1 =>
    .call req :: .delay TrelloRequest.getRateLimitDelayMs :: retryTrace req n

/-- `Trello.enableFullResponse(enable)` (trello.js pass-through): writes
the `doFullResponse` flag on the held `TrelloRequest` instance. -/
def Trello.enableFullResponse (s : TrelloRequest) (enable : Bool) :
    TrelloRequest :=
  { s with doFullResponse := enable }

/-- `Trello.isInFullResponseMode()`: reads the flag back. -/
def Trello.isInFullResponseMode (s : TrelloRequest) : Bool :=
  s.doFullResponse

/-- `Trello.getRateLimitError()` pass-through. -/
def Trello.getRateLimitError : Nat := TrelloRequest.getRateLimitError

/-- `Trello.getRateLimitDelayMs()` pass-through. -/
def Trello.getRateLimitDelayMs : Nat := TrelloRequest.getRateLimitDelayMs

/-- A successful HTTP response as the transport sees it: status, headers,
decoded body. -/
structure RpnEnvelope where
  statusCode : Nat
  headers : JsObj
  body : JsVal

/-- What a request resolves with: the full response envelope or only the
decoded body. -/
inductive RpnResolved where
  | fullResponse (env : RpnEnvelope)
  | bodyOnly (v : JsVal)

/-- Transport resolution rule (request-promise-native interface, spec §4.3
and the trelloRequest.js constructor comment): with
`resolveWithFullResponse` set the promise resolves with the full response,
otherwise with the decoded body. -/
def rpnResolve (req : RpnOptions) (env : RpnEnvelope) : RpnResolved :=
  if req.resolveWithFullResponse then .fullResponse env else .bodyOnly env.body

/-- One step in a caller's session with a single dispatcher instance:
toggle the full-response flag, or issue a GET whose transport would answer
with the given envelope. -/
inductive TrelloEvent where
  | setFullResponse (b : Bool)
  | getCall (path : String) (env : RpnEnvelope)

/-- Dispatcher state after a sequence of session events. -/
def Trello.stateAfter (s : TrelloRequest) : List TrelloEvent → TrelloRequest
  | [] => s
  | .setFullResponse b :: rest =>
    Trello.stateAfter (Trello.enableFullResponse s b) rest
  | .getCall _ _ :: rest => Trello.stateAfter s rest

/-- The resolved values the session's requests produce, in order: each
request is built by `getRpn` (hence `setupDefaultOption`) from the state
at the time of that request. -/
def Trello.runResolved (s : TrelloRequest) : List TrelloEvent → List RpnResolved
  | [] => []
  | .setFullResponse b :: rest =>
    Trello.runResolved (Trello.enableFullResponse s b) rest
  | .getCall p env :: rest =>
    rpnResolve (s.getRpn p []) env :: Trello.runResolved s rest

/-- The last value passed to `enableFullResponse` in the event list
(`none` when the flag was never set). -/
def lastSetFullResponse : List TrelloEvent → Option Bool
  | [] => none
  | .setFullResponse b :: rest => some ((lastSetFullResponse rest).getD b)
  | .getCall _ _ :: rest => lastSetFullResponse rest

/-- The JavaScript defaulting idiom `o[k] = o[k] || d`: the key is
assigned its old value when that value is truthy, the default otherwise
(a missing key reads as `undefined`, which is falsy). -/
def jsDefaultKey (o : JsObj) (k : String) (d : JsVal) : JsObj :=
  let v := (jsLookup o k).getD .undef
  jsSet o k (if truthy v then v else d)

/-- `Trello.getActionsOnCard`: builds the actions path, mutates the
caller-supplied options object in place with `options.filter =
options.filter || 'all'` then `options.limit = options.limit || 1000`, and
issues the GET with that same object. The returned pair is the path and
the options handed to `get` — which, by the in-place mutation, is also the
state of the caller's object after the call. -/
def Trello.getActionsOnCard (cardId : String) (options : JsObj) :
    String × JsObj :=
  ("/1/cards/" ++ cardId ++ "/actions",
    jsDefaultKey (jsDefaultKey options "filter" (.str "all"))
      "limit" (.num 1000))

/-- `Trello.getListCardCmd(listId)`: '/1/lists/<id>/cards'. -/
def Trello.getListCardCmd (listId : String) : String :=
  "/1/lists/" ++ listId ++ "/cards"

/-- `Trello.getCardsOnList`: the path/options pair it hands to `get`
(the caller options pass through untouched). -/
def Trello.getCardsOnListReq (listId : String) (options : JsObj) :
    String × JsObj :=
  (Trello.getListCardCmd listId, options)

/-- `Trello.getCardsOnBoard`: path '/1/board/<id>/cards' (built from
`getBoardPrefixWithId`), caller options pass through untouched. -/
def Trello.getCardsOnBoardReq (boardId : String) (options : JsObj) :
    String × JsObj :=
  ("/1/board/" ++ boardId ++ "/cards", options)

/-- `Trello.getArchivedCardsOnList`: builds
`{...param.options, filter: 'closed'}` (a fresh object) and calls
`getCardsOnList` with it. -/
def Trello.getArchivedCardsOnList (listId : String) (options : JsObj) :
    String × JsObj :=
  Trello.getCardsOnListReq listId (jsSet options "filter" (.str "closed"))

/-- `Trello.getArchivedCardsOnBoard`: builds
`{...param.options, filter: 'closed'}` and calls `getCardsOnBoard`. -/
def Trello.getArchivedCardsOnBoard (boardId : String) (options : JsObj) :
    String × JsObj :=
  Trello.getCardsOnBoardReq boardId (jsSet options "filter" (.str "closed"))

theorem getLoop_cons_429 (req : RpnOptions) (e : TransportErr)
    (he : e.statusCode = some 429) (l : List (Except TransportErr JsVal)) :
    Trello.getLoop req (Except.error e :: l) =
      (.resolved none,
        .call req :: .delay TrelloRequest.getRateLimitDelayMs ::
          (Trello.getLoop req l).2) := by
  simp [Trello.getLoop, he, TrelloRequest.getRateLimitError]

theorem getLoop_rate_limited (req : RpnOptions) (e : TransportErr)
    (he : e.statusCode = some 429) (v : JsVal) :
    ∀ n : Nat,
      Trello.getLoop req
          (List.replicate (n + 1) (Except.error e) ++ [Except.ok v]) =
        (.resolved none, retryTrace req (n + 1)) := by
  intro n
  induction n with
  | zero =>
    rw [List.replicate_succ, List.replicate_zero, List.singleton_append,
      getLoop_cons_429 req e he]
    rfl
  | succ m ih =>
    rw [List.replicate_succ, List.cons_append, getLoop_cons_429 req e he, ih]
    rfl

theorem callCount_retryTrace (req : RpnOptions) (m : Nat) :
    callCount (retryTrace req m) = m + 1 := by
  induction m with
  | zero => rfl
  | succ k ih => simp [retryTrace, callCount, List.countP_cons] at ih ⊢; omega

theorem delayCount_retryTrace (req : RpnOptions) (m : Nat) :
    delayCount (retryTrace req m) = m := by
  induction m with
  | zero => rfl
  | succ k ih => simp [retryTrace, delayCount, List.countP_cons] at ih ⊢; omega

/-- **C1** (refuted — code bug): for a GET whose transport rejects with
status 429 on the first `n + 1 ≥ 1` attempts and succeeds on the next, the
transport is invoked exactly `n + 2` times with the fixed delay awaited
between consecutive attempts — but the caller's promise resolves with
`undefined` (`none`), not the final successful value: the recovery branch
of `Trello.get` invokes `this.get(pathOptions)` without returning or
awaiting it, so the retried value is discarded. -/
theorem trello_get_rate_limited_drops_value
    (s : TrelloRequest) (po : PathOptions)
    (hv : validatePathOptions po = true)
    (e : TransportErr) (he : e.statusCode = some 429)
    (v : JsVal) (n : Nat) :
    Trello.get s po
        (List.replicate (n + 1) (Except.error e) ++ [Except.ok v]) =
      (.resolved none,
        retryTrace (s.getRpn (jsStr po.path) (jsSpread po.options)) (n + 1)) ∧
    callCount
        (retryTrace (s.getRpn (jsStr po.path) (jsSpread po.options)) (n + 1)) =
      (n + 1) + 1 ∧
    delayCount
        (retryTrace (s.getRpn (jsStr po.path) (jsSpread po.options)) (n + 1)) =
      n + 1 ∧
    DispatchOutcome.resolved none ≠ DispatchOutcome.resolved (some v) := by
  refine ⟨?_, callCount_retryTrace _ _, delayCount_retryTrace _ _, ?_⟩
  · have hget :
        Trello.get s po
            (List.replicate (n + 1) (Except.error e) ++ [Except.ok v]) =
          Trello.getLoop (s.getRpn (jsStr po.path) (jsSpread po.options))
            (List.replicate (n + 1) (Except.error e) ++ [Except.ok v]) := by
      simp [Trello.get, hv]
    rw [hget]
    exact getLoop_rate_limited _ e he v n
  · intro h
    injection h with h'
    exact Option.noConfusion h'

theorem trello_get_rate_limited_drops_value_witness :
    validatePathOptions ⟨.str "/1/cards/ABC", .obj []⟩ = true ∧
    (Trello.get (TrelloRequest.init "mykey" "mytoken")
          ⟨.str "/1/cards/ABC", .obj []⟩
          (List.replicate (1 + 1) (Except.error ⟨some 429, "rate"⟩) ++
            [Except.ok (JsVal.str "done")])).1 =
      DispatchOutcome.resolved none := by
  refine ⟨rfl, ?_⟩
  have h := trello_get_rate_limited_drops_value
    (TrelloRequest.init "mykey" "mytoken") ⟨.str "/1/cards/ABC", .obj []⟩
    rfl ⟨some 429, "rate"⟩ rfl (JsVal.str "done") 1
  rw [h.1]

/-- **C2**: a GET whose transport rejects with a status other than 429 is
rejected with that same error object unchanged, after exactly one
transport invocation, with no delay and no retry. -/
theorem trello_get_non429_rejects_once
    (s : TrelloRequest) (po : PathOptions)
    (hv : validatePathOptions po = true)
    (e : TransportErr) (he : e.statusCode ≠ some 429)
    (rest : List (Except TransportErr JsVal)) :
    Trello.get s po (Except.error e :: rest) =
      (.rejected e,
        [.call (s.getRpn (jsStr po.path) (jsSpread po.options))]) := by
  simp [Trello.get, hv, Trello.getLoop, TrelloRequest.getRateLimitError, he]

theorem trello_get_non429_rejects_once_witness :
    validatePathOptions ⟨.str "/1/cards/ABC", .obj []⟩ = true ∧
    Trello.get (TrelloRequest.init "mykey" "mytoken")
        ⟨.str "/1/cards/ABC", .obj []⟩
        [Except.error ⟨some 500, "server error"⟩] =
      (.rejected ⟨some 500, "server error"⟩,
        [.call ((TrelloRequest.init "mykey" "mytoken").getRpn
          (jsStr (.str "/1/cards/ABC")) (jsSpread (.obj [])))]) :=
  ⟨rfl,
    trello_get_non429_rejects_once (TrelloRequest.init "mykey" "mytoken")
      ⟨.str "/1/cards/ABC", .obj []⟩ rfl ⟨some 500, "server error"⟩
      (by decide) []⟩

/-- **C3**: a PUT, POST, or DELETE whose transport rejects with status 429
propagates the error to the caller immediately and unchanged, after
exactly one transport invocation — the rate-limit retry exists only on the
GET path. -/
theorem trello_put_post_delete_429_no_retry
    (s : TrelloRequest) (po : PathOptions)
    (hv : validatePathOptions po = true)
    (e : TransportErr) (he : e.statusCode = some 429)
    (rest : List (Except TransportErr JsVal)) :
    Trello.put s po (Except.error e :: rest) =
      (.rejected e,
        [.call (s.putRpn (jsStr po.path) (jsSpread po.options))]) ∧
    Trello.post s po (Except.error e :: rest) =
      (.rejected e,
        [.call (s.postRpn (jsStr po.path) (jsSpread po.options))]) ∧
    Trello.delete s po (Except.error e :: rest) =
      (.rejected e,
        [.call (s.deleteRpn (jsStr po.path) (jsSpread po.options))]) := by
  refine ⟨?_, ?_, ?_⟩ <;>
    simp [Trello.put, Trello.post, Trello.delete, hv]

theorem trello_put_post_delete_429_no_retry_witness :
    validatePathOptions ⟨.str "/1/cards/ABC", .obj []⟩ = true ∧
    (⟨some 429, "rate"⟩ : TransportErr).statusCode = some 429 ∧
    Trello.put (TrelloRequest.init "mykey" "mytoken")
        ⟨.str "/1/cards/ABC", .obj []⟩
        [Except.error ⟨some 429, "rate"⟩, Except.ok (JsVal.str "later")] =
      (.rejected ⟨some 429, "rate"⟩,
        [.call ((TrelloRequest.init "mykey" "mytoken").putRpn
          (jsStr (.str "/1/cards/ABC")) (jsSpread (.obj [])))]) := by
  refine ⟨rfl, rfl, ?_⟩
  exact (trello_put_post_delete_429_no_retry
    (TrelloRequest.init "mykey" "mytoken") ⟨.str "/1/cards/ABC", .obj []⟩
    rfl ⟨some 429, "rate"⟩ rfl [Except.ok (JsVal.str "later")]).1

theorem jsLookup_not_mem (o : JsObj) (k : String)
    (h : k ∉ o.map Prod.fst) : jsLookup o k = none := by
  induction o with
  | nil => rfl
  | cons p rest ih =>
    simp only [List.map_cons, List.mem_cons] at h
    push_neg at h
    have hne : ¬ p.1 = k := fun hh => h.1 hh.symm
    simp only [jsLookup, hne, if_false]
    exact ih h.2

theorem jsLookup_jsMerge (a o : JsObj)
    (hnd : (o.map Prod.fst).Nodup) (k : String) :
    jsLookup (jsMerge a o) k =
      (jsLookup o k).orElse (fun _ => jsLookup a k) := by
  induction o generalizing a with
  | nil => rfl
  | cons p rest ih =>
    have hstep : jsMerge a (p :: rest) = jsMerge (jsSet a p.1 p.2) rest := rfl
    have hnd' := hnd
    rw [List.map_cons] at hnd'
    have hsplit := List.nodup_cons.mp hnd'
    rw [hstep, ih (jsSet a p.1 p.2) hsplit.2]
    by_cases hk : p.1 = k
    · subst hk
      rw [jsLookup_not_mem rest p.1 hsplit.1]
      simp [jsLookup, jsLookup_jsSet_self, Option.orElse]
    · simp [jsLookup, hk, jsLookup_jsSet_ne a p.1 k p.2 (Ne.symm hk)]

/-- **C4 counterexample**: for the DELETE verb the caller options are
assigned to the `options` property of the request options object, not
merged into the query string: a concrete DELETE with `{limit: 10}` leaves
`limit` out of `qs`, so the outgoing query string is not the auth pair
merged with the caller options. -/
theorem trello_delete_options_not_merged_cex :
    jsLookup ((TrelloRequest.init "KEY" "TOKEN").deleteRpn "/1/cards/X"
        [("limit", JsVal.num 10)]).qs "limit" = none ∧
    jsLookup (jsMerge (TrelloRequest.init "KEY" "TOKEN").getAuthObj
        [("limit", JsVal.num 10)]) "limit" = some (JsVal.num 10) ∧
    ((TrelloRequest.init "KEY" "TOKEN").deleteRpn "/1/cards/X"
        [("limit", JsVal.num 10)]).options = some [("limit", JsVal.num 10)] ∧
    ((TrelloRequest.init "KEY" "TOKEN").deleteRpn "/1/cards/X"
          [("limit", JsVal.num 10)]).qs ≠
      jsMerge (TrelloRequest.init "KEY" "TOKEN").getAuthObj
        [("limit", JsVal.num 10)] := by
  refine ⟨rfl, rfl, rfl, ?_⟩
  intro h
  have h2 := congrArg (fun o => jsLookup o "limit") h
  exact Option.noConfusion h2

/-- **C4 amended**: for every GET the outgoing query string is the stored
`key`/`token` pair merged with the caller options, last write wins (a
caller-supplied `key`/`token` overrides the stored one); for every DELETE
the query string is exactly the auth pair — the caller options are carried
on the request object's `options` property and are not merged into the
query string. -/
theorem trello_get_delete_query_auth
    (s : TrelloRequest) (path : String) (options : JsObj)
    (hnd : (options.map Prod.fst).Nodup) (k : String) :
    jsLookup (s.getRpn path options).qs k =
      (jsLookup options k).orElse (fun _ => jsLookup s.getAuthObj k) ∧
    (s.deleteRpn path options).qs = s.getAuthObj ∧
    (s.deleteRpn path options).options = some options ∧
    jsLookup s.getAuthObj "key" = some (JsVal.str s.key) ∧
    jsLookup s.getAuthObj "token" = some (JsVal.str s.token) := by
  refine ⟨jsLookup_jsMerge s.getAuthObj options hnd k, rfl, rfl, ?_, ?_⟩
  · simp [TrelloRequest.getAuthObj, jsLookup]
  · simp [TrelloRequest.getAuthObj, jsLookup]

theorem trello_get_delete_query_auth_witness :
    (([("key", JsVal.str "callerKey")] : JsObj).map Prod.fst).Nodup ∧
    jsLookup ((TrelloRequest.init "mykey" "mytoken").getRpn "/1/lists/5"
        [("key", JsVal.str "callerKey")]).qs "key" =
      (jsLookup [("key", JsVal.str "callerKey")] "key").orElse
        (fun _ =>
          jsLookup (TrelloRequest.init "mykey" "mytoken").getAuthObj "key") := by
  refine ⟨by decide, ?_⟩
  exact (trello_get_delete_query_auth (TrelloRequest.init "mykey" "mytoken")
    "/1/lists/5" [("key", JsVal.str "callerKey")] (by decide) "key").1

/-- **C5** (spec-modelled validation): when `path` is not a non-empty
string, or the options/body argument is present but not a mapping, every
operation rejects with a `ValidationError` with an empty trace: no
transport call is attempted and the retry policy is never entered. -/
theorem trello_validation_rejects_before_transport
    (s : TrelloRequest) (po : PathOptions)
    (hv : validPath po.path = false ∨ validOptionsArg po.options = false)
    (responses : List (Except TransportErr JsVal)) :
    Trello.get s po responses = (.validationError, []) ∧
    Trello.put s po responses = (.validationError, []) ∧
    Trello.post s po responses = (.validationError, []) ∧
    Trello.delete s po responses = (.validationError, []) := by
  have hva : validatePathOptions po = false := by
    rcases hv with h | h <;> simp [validatePathOptions, h]
  refine ⟨?_, ?_, ?_, ?_⟩ <;>
    simp [Trello.get, Trello.put, Trello.post, Trello.delete, hva]

theorem trello_validation_rejects_before_transport_witness :
    validPath (JsVal.str "") = false ∧
    Trello.get (TrelloRequest.init "mykey" "mytoken")
        ⟨.str "", .obj []⟩ [Except.ok (JsVal.str "ready")] =
      (.validationError, []) := by
  refine ⟨rfl, ?_⟩
  exact (trello_validation_rejects_before_transport
    (TrelloRequest.init "mykey" "mytoken") ⟨.str "", .obj []⟩
    (Or.inl rfl) [Except.ok (JsVal.str "ready")]).1


theorem flag_stateAfter (es : List TrelloEvent) :
    ∀ s : TrelloRequest,
      Trello.isInFullResponseMode (Trello.stateAfter s es) =
        (lastSetFullResponse es).getD (Trello.isInFullResponseMode s) := by
  induction es with
  | nil => intro s; rfl
  | cons e rest ih =>
    intro s
    cases e with
    | setFullResponse b =>
      have h1 : Trello.stateAfter s (TrelloEvent.setFullResponse b :: rest) =
          Trello.stateAfter (Trello.enableFullResponse s b) rest := rfl
      rw [h1, ih]
      simp [lastSetFullResponse, Trello.enableFullResponse,
        Trello.isInFullResponseMode]
    | getCall p env =>
      have h1 : Trello.stateAfter s (TrelloEvent.getCall p env :: rest) =
          Trello.stateAfter s rest := rfl
      rw [h1, ih]
      simp [lastSetFullResponse]

theorem runResolved_append (es : List TrelloEvent) :
    ∀ (s : TrelloRequest) (p : String) (env : RpnEnvelope),
      Trello.runResolved s (es ++ [TrelloEvent.getCall p env]) =
        Trello.runResolved s es ++
          [rpnResolve ((Trello.stateAfter s es).getRpn p []) env] := by
  induction es with
  | nil => intro s p env; rfl
  | cons e rest ih =>
    intro s p env
    cases e with
    | setFullResponse b =>
      simp only [List.cons_append, Trello.runResolved, Trello.stateAfter]
      exact ih (Trello.enableFullResponse s b) p env
    | getCall q env2 =>
      simp only [List.cons_append, Trello.runResolved, Trello.stateAfter]
      exact congrArg (fun l => rpnResolve (s.getRpn q []) env2 :: l) (ih s p env)

/-- **C6**: over any sequence of toggles and GET requests on one
dispatcher instance, each request is built with the flag value current at
the time of that request — it resolves with the full response envelope
exactly when the last preceding `enableFullResponse` set `true`, with the
decoded body otherwise (including before any toggle, since construction
leaves the flag `false`) — and `isInFullResponseMode` returns the last
value set (`false` at construction). -/
theorem trello_full_response_mode (k t : String) (es : List TrelloEvent)
    (p : String) (env : RpnEnvelope) :
    Trello.runResolved (TrelloRequest.init k t)
        (es ++ [TrelloEvent.getCall p env]) =
      Trello.runResolved (TrelloRequest.init k t) es ++
        [if (lastSetFullResponse es).getD false then
            RpnResolved.fullResponse env
          else RpnResolved.bodyOnly env.body] ∧
    Trello.isInFullResponseMode
        (Trello.stateAfter (TrelloRequest.init k t) es) =
      (lastSetFullResponse es).getD false := by
  have hflag := flag_stateAfter es (TrelloRequest.init k t)
  have hinit :
      Trello.isInFullResponseMode (TrelloRequest.init k t) = false := rfl
  rw [hinit] at hflag
  constructor
  · rw [runResolved_append es (TrelloRequest.init k t) p env]
    have hshape :
        rpnResolve
            ((Trello.stateAfter (TrelloRequest.init k t) es).getRpn p [])
            env =
          if Trello.isInFullResponseMode
              (Trello.stateAfter (TrelloRequest.init k t) es) then
            RpnResolved.fullResponse env
          else RpnResolved.bodyOnly env.body := rfl
    rw [hshape, hflag]
  · exact hflag

/-- **C7**: for every PUT and POST the caller-supplied body is the request
payload, while the query string is exactly the stored `key`/`token` pair —
the credentials travel only in the query string and are never merged into
the body, and the body object is passed through without additions. -/
theorem trello_put_post_body_and_auth
    (s : TrelloRequest) (path : String) (body : JsObj) :
    (s.putRpn path body).body = some body ∧
    (s.postRpn path body).body = some body ∧
    (s.putRpn path body).qs = s.getAuthObj ∧
    (s.postRpn path body).qs = s.getAuthObj ∧
    jsLookup (s.putRpn path body).qs "key" = some (JsVal.str s.key) ∧
    jsLookup (s.putRpn path body).qs "token" = some (JsVal.str s.token) := by
  refine ⟨rfl, rfl, rfl, rfl, ?_, ?_⟩ <;>
    simp [TrelloRequest.putRpn, TrelloRequest.setupPutPostOptions,
      TrelloRequest.setupDefaultOption, TrelloRequest.getAuthObj, jsLookup]

/-- **C8**: the rate-limit policy constants are fixed:
`getRateLimitError()` is the constant 429 and `getRateLimitDelayMs()` the
constant (positive) 500 — both nullary, depending on no response data, and
identical through the `Trello` pass-through accessors. -/
theorem trello_rate_limit_constants :
    TrelloRequest.getRateLimitError = 429 ∧
    TrelloRequest.getRateLimitDelayMs = 500 ∧
    0 < TrelloRequest.getRateLimitDelayMs ∧
    Trello.getRateLimitError = TrelloRequest.getRateLimitError ∧
    Trello.getRateLimitDelayMs = TrelloRequest.getRateLimitDelayMs :=
  ⟨rfl, rfl, by decide, rfl, rfl⟩

theorem jsLookup_jsDefaultKey_self (o : JsObj) (k : String) (d : JsVal) :
    jsLookup (jsDefaultKey o k d) k =
      some (if truthy ((jsLookup o k).getD .undef) then
          (jsLookup o k).getD .undef
        else d) := by
  unfold jsDefaultKey
  exact jsLookup_jsSet_self o k _

theorem jsLookup_jsDefaultKey_ne (o : JsObj) (k : String) (d : JsVal)
    (k' : String) (h : k' ≠ k) :
    jsLookup (jsDefaultKey o k d) k' = jsLookup o k' := by
  unfold jsDefaultKey
  exact jsLookup_jsSet_ne o k k' _ h

/-- **C9 counterexample**: `getActionsOnCard` defaults with JavaScript
truthiness (`||`), not key presence: a caller-supplied *falsy* value for
`filter` — the empty string — is overwritten with `'all'` although the
key was supplied, so caller-supplied values for those keys are not always
left unchanged. -/
theorem getActionsOnCard_falsy_value_overwritten_cex :
    jsLookup [("filter", JsVal.str "")] "filter" = some (JsVal.str "") ∧
    jsLookup (Trello.getActionsOnCard "C123"
        [("filter", JsVal.str "")]).2 "filter" = some (JsVal.str "all") ∧
    jsLookup (Trello.getActionsOnCard "C123"
          [("filter", JsVal.str "")]).2 "filter" ≠
      jsLookup [("filter", JsVal.str "")] "filter" := by
  refine ⟨rfl, rfl, ?_⟩
  intro h
  have h1 : some (JsVal.str "all") = some (JsVal.str "") := h
  have h2 : JsVal.str "all" = JsVal.str "" := Option.some.inj h1
  injection h2 with h3
  exact absurd h3 (by decide)

/-- **C9 amended**: `getActionsOnCard` mutates the caller-supplied options
object in place, issuing its GET with the same mapping the caller then
observes: on it, `filter` and `limit` hold `'all'` resp. `1000` whenever
the caller's value for the key was absent *or falsy*, and hold the
caller's value whenever it was truthy; every other key is untouched. The
path is the card actions command. -/
theorem getActionsOnCard_defaults (cardId : String) (options : JsObj) :
    (Trello.getActionsOnCard cardId options).1 =
      "/1/cards/" ++ cardId ++ "/actions" ∧
    (jsLookup options "filter" = none →
      jsLookup (Trello.getActionsOnCard cardId options).2 "filter" =
        some (JsVal.str "all")) ∧
    (jsLookup options "limit" = none →
      jsLookup (Trello.getActionsOnCard cardId options).2 "limit" =
        some (JsVal.num 1000)) ∧
    (∀ v, jsLookup options "filter" = some v → truthy v = true →
      jsLookup (Trello.getActionsOnCard cardId options).2 "filter" = some v) ∧
    (∀ v, jsLookup options "filter" = some v → truthy v = false →
      jsLookup (Trello.getActionsOnCard cardId options).2 "filter" =
        some (JsVal.str "all")) ∧
    (∀ v, jsLookup options "limit" = some v → truthy v = true →
      jsLookup (Trello.getActionsOnCard cardId options).2 "limit" = some v) ∧
    (∀ v, jsLookup options "limit" = some v → truthy v = false →
      jsLookup (Trello.getActionsOnCard cardId options).2 "limit" =
        some (JsVal.num 1000)) ∧
    (∀ k, k ≠ "filter" → k ≠ "limit" →
      jsLookup (Trello.getActionsOnCard cardId options).2 k =
        jsLookup options k) := by
  have hfilterNe : ("filter" : String) ≠ "limit" := by decide
  have hafter :
      (Trello.getActionsOnCard cardId options).2 =
        jsDefaultKey (jsDefaultKey options "filter" (.str "all"))
          "limit" (.num 1000) := rfl
  have hfil :
      jsLookup (Trello.getActionsOnCard cardId options).2 "filter" =
        some (if truthy ((jsLookup options "filter").getD .undef) then
            (jsLookup options "filter").getD .undef
          else .str "all") := by
    rw [hafter, jsLookup_jsDefaultKey_ne _ _ _ _ hfilterNe,
      jsLookup_jsDefaultKey_self]
  have hlim :
      jsLookup (Trello.getActionsOnCard cardId options).2 "limit" =
        some (if truthy ((jsLookup options "limit").getD .undef) then
            (jsLookup options "limit").getD .undef
          else .num 1000) := by
    rw [hafter, jsLookup_jsDefaultKey_self,
      jsLookup_jsDefaultKey_ne _ _ _ _ (Ne.symm hfilterNe)]
  refine ⟨rfl, ?_, ?_, ?_, ?_, ?_, ?_, ?_⟩
  · intro h
    rw [hfil, h]
    rfl
  · intro h
    rw [hlim, h]
    rfl
  · intro v hv ht
    rw [hfil, hv]
    simp [ht]
  · intro v hv ht
    rw [hfil, hv]
    simp [ht]
  · intro v hv ht
    rw [hlim, hv]
    simp [ht]
  · intro v hv ht
    rw [hlim, hv]
    simp [ht]
  · intro k hk1 hk2
    rw [hafter, jsLookup_jsDefaultKey_ne _ _ _ _ hk2,
      jsLookup_jsDefaultKey_ne _ _ _ _ hk1]

theorem getActionsOnCard_defaults_witness :
    jsLookup (Trello.getActionsOnCard "C1"
        [("filter", JsVal.str "moveCardToBoard")]).2 "filter" =
      some (JsVal.str "moveCardToBoard") ∧
    jsLookup (Trello.getActionsOnCard "C1"
        [("filter", JsVal.str "moveCardToBoard")]).2 "limit" =
      some (JsVal.num 1000) := by
  have h := getActionsOnCard_defaults "C1"
    [("filter", JsVal.str "moveCardToBoard")]
  exact ⟨h.2.2.2.1 (JsVal.str "moveCardToBoard") rfl rfl, h.2.2.1 rfl⟩

/-- **C10**: `getArchivedCardsOnList` and `getArchivedCardsOnBoard` issue
their underlying GET with `filter` equal to `'closed'`, overriding any
caller-supplied `filter`, while every other caller option key is passed
through unchanged; the paths are the list-cards resp. board-cards
commands. -/
theorem archived_cards_filter_closed (listId boardId : String)
    (options : JsObj) (k : String) :
    jsLookup (Trello.getArchivedCardsOnList listId options).2 "filter" =
      some (JsVal.str "closed") ∧
    jsLookup (Trello.getArchivedCardsOnBoard boardId options).2 "filter" =
      some (JsVal.str "closed") ∧
    (k ≠ "filter" →
      jsLookup (Trello.getArchivedCardsOnList listId options).2 k =
        jsLookup options k) ∧
    (k ≠ "filter" →
      jsLookup (Trello.getArchivedCardsOnBoard boardId options).2 k =
        jsLookup options k) ∧
    (Trello.getArchivedCardsOnList listId options).1 =
      Trello.getListCardCmd listId ∧
    (Trello.getArchivedCardsOnBoard boardId options).1 =
      "/1/board/" ++ boardId ++ "/cards" :=
  ⟨jsLookup_jsSet_self options "filter" (.str "closed"),
    jsLookup_jsSet_self options "filter" (.str "closed"),
    fun h => jsLookup_jsSet_ne options "filter" k (.str "closed") h,
    fun h => jsLookup_jsSet_ne options "filter" k (.str "closed") h,
    rfl, rfl⟩

theorem archived_cards_filter_closed_witness :
    jsLookup (Trello.getArchivedCardsOnList "L1"
        [("fields", JsVal.str "name"), ("filter", JsVal.str "open")]).2
      "filter" = some (JsVal.str "closed") ∧
    jsLookup (Trello.getArchivedCardsOnList "L1"
        [("fields", JsVal.str "name"), ("filter", JsVal.str "open")]).2
      "fields" = some (JsVal.str "name") := by
  have h := archived_cards_filter_closed "L1" "B1"
    [("fields", JsVal.str "name"), ("filter", JsVal.str "open")] "fields"
  exact ⟨h.1, h.2.2.1 (by decide)⟩
